import Mathlib

/-!
Verification of the configuration-resolution pipeline and policy checker of
node-clean-env, shallowly embedded from src/lib/config-file.js and
src/bin/clean-env.js.
-/

namespace CleanEnv

/-- JSON-like values: the common data model for configuration objects parsed
from JSON or YAML text, embedded in package.json, or exported by a JS config
module.  JS null and undefined are collapsed into one null value: the code
only ever inspects them through loose equality (x == null / x != null),
which does not distinguish the two. -/
inductive Jval where
  | null : Jval
  | bool : Bool → Jval
  | num : Int → Jval
  | str : String → Jval
  | arr : List Jval → Jval
  | obj : List (String × Jval) → Jval

/-- JS truthiness, used for the two fallbacks in the loaders:
yaml.safeLoad(...) || \x7b\x7d and ...['clean-env'] || null. -/
def jsFalsy : Jval → Bool
  | .null => true
  | .bool b => !b
  | .num n => n == 0
  | .str s => s.isEmpty
  | .arr _ => false
  | .obj _ => false

/-- isMergeableObject of the deepmerge npm package under default options:
plain objects and arrays are mergeable, primitives and null are not. -/
def isMergeable : Jval → Bool
  | .obj _ => true
  | .arr _ => true
  | _ => false

mutual

/-- The deepmerge npm package (default options), as called at
config-file.js line 201: merge(DEFAULT_CONFIG, loadedConfig).
Arrays concatenate (target ++ source); two plain objects merge key by key
(target keys first, keeping target order, then source-only keys in source
order); an array/non-array type mismatch returns the source; a plain object
merged with a primitive keeps the object's keys (a primitive has no own
enumerable keys; string character indices are not modelled); two primitives
produce the empty object, as mergeObject does on key-less values. -/
def deepmerge : Jval → Jval → Jval
  | .arr ts, .arr ss => .arr (ts ++ ss)
  | .arr _, s => s
  | .obj ts, .obj ss =>
      let ms := mergeSourceFields ts ss
      .obj ((ts.map fun p =>
          match List.lookup p.1 ms with
          | some v => (p.1, v)
          | none => p) ++
        ms.filter fun q => (List.lookup q.1 ts).isNone)
  | .obj _, .arr ss => .arr ss
  | .obj ts, _ => .obj ts
  | _, .arr ss => .arr ss
  | _, .obj ss => .obj ss
  | _, _ => .obj []

/-- The per-source-key pass of deepmerge's mergeObject: for each source key,
if the target also has the key and the source value is mergeable, recurse;
otherwise the source value wins.  Keeps source order. -/
def mergeSourceFields (ts : List (String × Jval)) :
    List (String × Jval) → List (String × Jval)
  | [] => []
  | (k, sv) :: rest =>
      (k, match List.lookup k ts with
          | some tv => if isMergeable sv then deepmerge tv sv else sv
          | none => sv) :: mergeSourceFields ts rest

end

/-- A JS Error as the code observes it: message text, plus the optional code
property (err.code) that isExistingFile inspects on statSync failures. -/
structure JsError where
  message : String
  code : Option String

/-- Contents of a regular file, modelled by the outcome of the parser the
file's format is meant for.  External parsers (importFresh, js-yaml,
JSON.parse after strip-json-comments) are not repository code; each is
modelled by its observable result on the file.  For JSON text the strict
flag records whether the text is already valid strict JSON (true) or only
becomes valid after comment stripping (false); JSON.parse of the stripped
text yields the value either way.  A file fed to a parser of a different
format than its own is modelled conservatively as a parse failure; no
theorem below depends on such a mismatch. -/
inductive FileContent where
  | jsModule : Jval → FileContent
  | jsBroken : String → FileContent
  | yamlDoc : Option Jval → FileContent
  | yamlBad : String → FileContent
  | jsonText : Bool → Jval → FileContent
  | jsonBad : String → FileContent

/-- What statSync finds at a path: a regular file with contents, a directory
(or other non-regular entry), or a stat failure carrying an error code.
A path absent from the list behaves as a stat failure with code ENOENT. -/
inductive FsEntry where
  | file : FileContent → FsEntry
  | directory : FsEntry
  | statError : String → FsEntry

/-- The (finite) file system a run sees, as a path-to-entry association list. -/
abbrev FileSystem := List (String × FsEntry)

/-- path.join(directory, filename) for the forward-slash paths used here. -/
def pathJoin (dir name : String) : String := dir ++ "/" ++ name

/-- path.basename: the final path component (the characters after the last
separator; no path here ends in a separator). -/
def basename (p : String) : String :=
  String.mk (p.toList.foldl (fun acc c => if c = '/' then [] else acc ++ [c]) [])

/-- Index of the last dot in a list of characters, if any. -/
def lastDot (cs : List Char) : Option Nat :=
  (cs.foldl (fun acc c => (acc.1 + 1, if c = '.' then some acc.1 else acc.2))
    ((0 : Nat), (none : Option Nat))).2

/-- path.extname: the extension of the final path component, from its last
dot onward; empty when there is no dot or the only dot is the leading one
(so ".env" has extension "" while "package.json" has ".json"). -/
def extname (p : String) : String :=
  let b := basename p
  match lastDot b.toList with
  | some i => if 0 < i then String.mk (b.toList.drop i) else ""
  | none => ""

/-- CONFIG_FILES at config-file.js lines 20-26: the candidate configuration
filenames in precedence order. -/
def CONFIG_FILES : List String :=
  [".clean-env.js", ".clean-env.yaml", ".clean-env.yml", ".clean-env.json",
   "package.json"]

/-- The error a failed statSync throws (message shape is not inspected by
the code; only the code property is). -/
def statFailError (p code : String) : JsError :=
  { message := code ++ ": stat failed on " ++ p, code := some code }

/-- isExistingFile at config-file.js lines 163-172: statSync(...).isFile(),
returning false on an ENOENT failure and rethrowing any other stat error. -/
def isExistingFile (fs : FileSystem) (filename : String) : Except JsError Bool :=
  match List.lookup filename fs with
  | some (.file _) => .ok true
  | some .directory => .ok false
  | some (.statError code) =>
      if code = "ENOENT" then .ok false else .error (statFailError filename code)
  | none => .ok false

/-- Array.prototype.find over candidate paths with the throwing predicate
isExistingFile, returning the first path for which it yields true. -/
def findExisting (fs : FileSystem) : List String → Except JsError (Option String)
  | [] => .ok none
  | p :: rest => do
      let b ← isExistingFile fs p
      if b then pure (some p) else findExisting fs rest

/-- getFilenameForDirectory at config-file.js lines 181-183: the first
existing candidate under the directory, or none (the source's || null). -/
def getFilenameForDirectory (fs : FileSystem) (directory : String) :
    Except JsError (Option String) :=
  findExisting fs (CONFIG_FILES.map (pathJoin directory))

/-- readFile at config-file.js lines 34-36 (BOM stripping is inside the
content model); reading a missing or non-regular file fails like the
underlying fs call. -/
def readFile (fs : FileSystem) (p : String) : Except JsError FileContent :=
  match List.lookup p fs with
  | some (.file c) => .ok c
  | _ => .error { message := "ENOENT: no such file or directory, open " ++ p,
                  code := some "ENOENT" }

/-- The message rewriting every loader applies in its catch block:
Cannot read config file: filePath, newline, Error: original message. -/
def wrapMsg (filePath m : String) : String :=
  "Cannot read config file: " ++ filePath ++ "\nError: " ++ m

/-- wrapMsg applied to an existing error, keeping its code property. -/
def wrapErr (filePath : String) (e : JsError) : JsError :=
  { e with message := wrapMsg filePath e.message }

/-- loadYAMLConfigFile at config-file.js lines 45-59:
yaml.safeLoad(readFile(filePath)) || \x7b\x7d, errors wrapped with the path. -/
def loadYAMLConfigFile (fs : FileSystem) (filePath : String) :
    Except JsError Jval :=
  match readFile fs filePath with
  | .error e => .error (wrapErr filePath e)
  | .ok (.yamlDoc none) => .ok (.obj [])
  | .ok (.yamlDoc (some v)) => .ok (if jsFalsy v then .obj [] else v)
  | .ok (.yamlBad m) => .error { message := wrapMsg filePath m, code := none }
  | .ok _ => .error { message := wrapMsg filePath "unexpected file contents",
                      code := none }

/-- loadJSONConfigFile at config-file.js lines 68-83:
JSON.parse(stripComments(readFile(filePath))), so JSON text parses whether
or not it is strict; errors wrapped with the path. -/
def loadJSONConfigFile (fs : FileSystem) (filePath : String) :
    Except JsError Jval :=
  match readFile fs filePath with
  | .error e => .error (wrapErr filePath e)
  | .ok (.jsonText _ v) => .ok v
  | .ok (.jsonBad m) => .error { message := wrapMsg filePath m, code := none }
  | .ok _ => .error { message := wrapMsg filePath "unexpected file contents",
                      code := none }

/-- loadJSConfigFile at config-file.js lines 92-101: importFresh(filePath)
(a fresh evaluation of the module, whose reads happen inside the try),
errors wrapped with the path. -/
def loadJSConfigFile (fs : FileSystem) (filePath : String) :
    Except JsError Jval :=
  match readFile fs filePath with
  | .error e => .error (wrapErr filePath e)
  | .ok (.jsModule v) => .ok v
  | .ok (.jsBroken m) => .error { message := wrapMsg filePath m, code := none }
  | .ok _ => .error { message := wrapMsg filePath "unexpected file contents",
                      code := none }

/-- loadPackageJSONConfigFile at config-file.js lines 110-119:
loadJSONConfigFile(filePath)['clean-env'] || null, with its catch wrapping
a second time errors the JSON loader already wrapped.  Property access on a
parsed primitive yields undefined (hence null); on parsed null it throws a
TypeError, caught and wrapped once here. -/
def loadPackageJSONConfigFile (fs : FileSystem) (filePath : String) :
    Except JsError Jval :=
  match loadJSONConfigFile fs filePath with
  | .error e => .error (wrapErr filePath e)
  | .ok (.obj fields) =>
      match List.lookup "clean-env" fields with
      | some cv => .ok (if jsFalsy cv then .null else cv)
      | none => .ok .null
  | .ok .null => .error (wrapErr filePath
      { message := "TypeError: Cannot read property of null", code := none })
  | .ok _ => .ok .null

/-- loadConfigFile at config-file.js lines 128-156: dispatch on the path's
extension, with package.json special-cased by basename; an unrecognised
extension yields the empty object.  A null result (package.json without the
clean-env key) flows through to getConfig's null check. -/
def loadConfigFile (fs : FileSystem) (filePath : String) : Except JsError Jval :=
  match extname filePath with
  | ".js" => loadJSConfigFile fs filePath
  | ".json" =>
      if basename filePath = "package.json" then
        loadPackageJSONConfigFile fs filePath
      else loadJSONConfigFile fs filePath
  | ".yaml" => loadYAMLConfigFile fs filePath
  | ".yml" => loadYAMLConfigFile fs filePath
  | _ => .ok (.obj [])

/-- Modelled from the spec: lib/default-config.json, required at
config-file.js line 14, is not under src/.  Its fields are reconstructed
from the spec's Default configuration item (required [], excluded [],
dotenv ".env", five translation message keys) and the default strings
listed in the repository README's Translations section. -/
def DEFAULT_TRANSLATIONS : List (String × Jval) :=
  [("missingRequired",
    .str "Clean ENV did not find the following required ENV variables."),
   ("foundExcluded",
    .str "Clean ENV has found the following excluded ENV variables in the ENV."),
   ("errorStatement", .str "Your ENV is not in a clean state."),
   ("errorQuestion",
    .str "Are you sure you want to continue with the build? (y)"),
   ("yes", .str "y")]

/-- The built-in default configuration object (see DEFAULT_TRANSLATIONS for
provenance of the strings). -/
def DEFAULT_CONFIG : Jval :=
  .obj [("required", .arr []),
        ("excluded", .arr []),
        ("dotenv", .str ".env"),
        ("translations", .obj DEFAULT_TRANSLATIONS)]

/-- getConfig at config-file.js lines 195-206: resolve the first existing
candidate, load it, and deep-merge a non-null result over the defaults;
with no candidate, or a null loaded config, the defaults are returned. -/
def getConfig (fs : FileSystem) (directory : String) : Except JsError Jval := do
  let configFile ← getFilenameForDirectory fs directory
  match configFile with
  | none => pure DEFAULT_CONFIG
  | some p =>
      match ← loadConfigFile fs p with
      | .null => pure DEFAULT_CONFIG
      | loadedConfig => pure (deepmerge DEFAULT_CONFIG loadedConfig)

/-- The original error text carried by a file whose parse fails. -/
def contentErrMsg : FileContent → Option String
  | .jsBroken m => some m
  | .yamlBad m => some m
  | .jsonBad m => some m
  | _ => none

/-- A file's content is of the format its path's extension dispatches to
(content-model counterpart of loadConfigFile's extension switch). -/
def formatMatches (filePath : String) (c : FileContent) : Bool :=
  match c with
  | .jsModule _ => extname filePath == ".js"
  | .jsBroken _ => extname filePath == ".js"
  | .yamlDoc _ => extname filePath == ".yaml" || extname filePath == ".yml"
  | .yamlBad _ => extname filePath == ".yaml" || extname filePath == ".yml"
  | .jsonText _ _ => extname filePath == ".json"
  | .jsonBad _ => extname filePath == ".json"

/-- Modelled from the spec: "parse as strict JSON" for the embedded manifest
format.  A strict JSON parse succeeds only on text that is valid JSON
without comment stripping; compared against the code's loader, which strips
comments first. -/
def strictParseJSONContent : FileContent → Except String Jval
  | .jsonText true v => .ok v
  | _ => .error "Unexpected token in JSON"

/-- A missingRequired report entry, bin/clean-env.js lines 33-37. -/
structure MissingEntry where
  name : String
deriving DecidableEq

/-- A foundExcluded report entry, bin/clean-env.js lines 40-45. -/
structure FoundEntry where
  name : String
  value : String
deriving DecidableEq

/-- The environment snapshot: variable name to string value; an absent name
is undefined in JS, so process.env[k] == null holds exactly when the name
is absent (Node environment values are always strings, never null). -/
abbrev EnvSnapshot := List (String × String)

/-- process.env[k] on the snapshot. -/
def envGet (env : EnvSnapshot) (k : String) : Option String := List.lookup k env

/-- missingRequired at bin/clean-env.js lines 33-37:
config.required.filter(key => process.env[key] == null).map(key => (\x7bname: key\x7d)).
The getD is never reached: the filter keeps only absent keys. -/
def missingRequired (required : List String) (env : EnvSnapshot) :
    List MissingEntry :=
  (required.filter fun k => (envGet env k).isNone).map fun k => { name := k }

/-- foundExcluded at bin/clean-env.js lines 40-45:
config.excluded.filter(key => process.env[key] != null) mapped to entries
pairing the name with its current value.  The getD default is never
reached: the filter keeps only present keys. -/
def foundExcluded (excluded : List String) (env : EnvSnapshot) :
    List FoundEntry :=
  (excluded.filter fun k => (envGet env k).isSome).map fun k =>
    { name := k, value := (envGet env k).getD "" }

/-- How the process run ends, distinguishing whether standard input was
read: exitNoPrompt is the implicit status-0 exit of the script falling off
the end without creating the readline interface; exitAfterPrompt is a
process.exit after the question was asked and answered. -/
inductive ProcessOutcome where
  | exitNoPrompt : Nat → ProcessOutcome
  | exitAfterPrompt : Nat → ProcessOutcome
deriving DecidableEq

/-- The control flow of bin/clean-env.js lines 33-74 after config
resolution and dotenv loading: compute both report lists, clear the safe
flag if either is non-empty, and when unsafe ask the question and exit 0
exactly when the answer strictly equals config.translations.yes (the
answer is compared with === and is not trimmed), else exit 1; when safe,
fall off the end of the script (implicit exit 0, stdin never read). -/
def runCheck (required excluded : List String) (env : EnvSnapshot)
    (yes answer : String) : ProcessOutcome :=
  let missing := missingRequired required env
  let found := foundExcluded excluded env
  let safe := true
  let safe := if missing.length > 0 then false else safe
  let safe := if found.length > 0 then false else safe
  if !safe then
    if answer = yes then .exitAfterPrompt 0 else .exitAfterPrompt 1
  else .exitNoPrompt 0

/-- Boolean version of isExistingFile succeeding with true, the predicate
List.find? needs to express "the first existing candidate". -/
def isFileB (fs : FileSystem) (p : String) : Bool :=
  match isExistingFile fs p with
  | .ok true => true
  | _ => false

/-- The default translations with the entry at one key replaced. -/
def defaultTranslationsWith (key : String) (v : Jval) : List (String × Jval) :=
  DEFAULT_TRANSLATIONS.map fun p => if p.1 = key then (p.1, v) else p

/-- The minimal user configuration of the spec's testable property:
required ["X"] and nothing else. -/
def requiredXConfig : Jval := .obj [("required", .arr [.str "X"])]

/-- The resolution expected for requiredXConfig: required becomes ["X"]
(the default [] concatenated with ["X"]) and every other field keeps its
default value. -/
def mergedRequiredX : Jval :=
  .obj [("required", .arr [.str "X"]),
        ("excluded", .arr []),
        ("dotenv", .str ".env"),
        ("translations", .obj DEFAULT_TRANSLATIONS)]

/-- A package.json whose text is valid JSON only after comment stripping
(strict flag false) and which carries a clean-env section. -/
def pkgWithComments : FileContent :=
  .jsonText false (.obj [("clean-env", requiredXConfig)])

/-- Modelled from the spec: "compare the trimmed answer" — removal of
leading and trailing whitespace from the answer string, used to state what
the spec predicts about whitespace-surrounded answers. -/
def specTrim (s : String) : String :=
  String.mk
    (((s.toList.dropWhile Char.isWhitespace).reverse.dropWhile
      Char.isWhitespace).reverse)

/-- A root with a malformed .clean-env.json and a well-formed package.json
behind it. -/
def fsBadJson : FileSystem :=
  [("/p/.clean-env.json", .file (.jsonBad "Unexpected token x in JSON at position 0")),
   ("/p/package.json", .file (.jsonText true (.obj [("clean-env", requiredXConfig)])))]

/-- A root with a .clean-env.yml and a package.json. -/
def fsYmlPkg : FileSystem :=
  [("/p/.clean-env.yml", .file (.yamlDoc (some requiredXConfig))),
   ("/p/package.json", .file (.jsonText true (.obj [])))]

/-- A root where the first candidate name is a directory and a later
candidate is a regular file. -/
def fsDirThenJson : FileSystem :=
  [("/p/.clean-env.js", .directory),
   ("/p/.clean-env.json", .file (.jsonText true requiredXConfig))]

/-- A root where stat on the second candidate fails with EACCES. -/
def fsStatErr : FileSystem := [("/p/.clean-env.yaml", .statError "EACCES")]

/-- A root containing only an empty .clean-env.yaml. -/
def fsEmptyYaml : FileSystem := [("/p/.clean-env.yaml", .file (.yamlDoc none))]

/-- A root containing only an empty .clean-env.yml. -/
def fsEmptyYml : FileSystem := [("/p/.clean-env.yml", .file (.yamlDoc none))]

/-- A root containing only a package.json with comments and a clean-env key. -/
def fsPkgComments : FileSystem := [("/p/package.json", .file pkgWithComments)]

/-- A root containing only a package.json without the clean-env key. -/
def fsPkgNoKey : FileSystem :=
  [("/p/package.json", .file (.jsonText true (.obj [("name", .str "clean-env-demo")])))]

/-- A root containing only a package.json whose clean-env key is the empty
object. -/
def fsPkgEmptyKey : FileSystem :=
  [("/p/package.json", .file (.jsonText true (.obj [("clean-env", .obj [])])))]

/-- A root holding requiredXConfig as a .clean-env.js module. -/
def fsJsX : FileSystem := [("/p/.clean-env.js", .file (.jsModule requiredXConfig))]

/-- A root holding requiredXConfig as a .clean-env.yaml document. -/
def fsYamlX : FileSystem :=
  [("/p/.clean-env.yaml", .file (.yamlDoc (some requiredXConfig)))]

/-- A root holding requiredXConfig as a .clean-env.yml document. -/
def fsYmlX : FileSystem :=
  [("/p/.clean-env.yml", .file (.yamlDoc (some requiredXConfig)))]

/-- A root holding requiredXConfig as strict JSON in .clean-env.json. -/
def fsJsonX : FileSystem :=
  [("/p/.clean-env.json", .file (.jsonText true requiredXConfig))]

/-- A root holding requiredXConfig under the clean-env key of package.json. -/
def fsPkgX : FileSystem :=
  [("/p/package.json", .file (.jsonText true (.obj [("clean-env", requiredXConfig)])))]

/-- Helper: bind on a successful Except computes the continuation. -/
theorem exceptBindOk {ε α β : Type} (a : α) (f : α → Except ε β) :
    (Except.ok a >>= f) = f a := rfl

/-- Helper: bind on a failed Except propagates the error. -/
theorem exceptBindErr {ε α β : Type} (e : ε) (f : α → Except ε β) :
    ((Except.error e : Except ε α) >>= f) = Except.error e := rfl

/-- Helper: when stat throws on no candidate, the find over the candidate
paths computes List.find? of the boolean existence predicate, hence the
first existing candidate in list order. -/
theorem findExisting_eq_find (fs : FileSystem) :
    ∀ l : List String, (∀ p ∈ l, ∃ b, isExistingFile fs p = .ok b) →
      findExisting fs l = .ok (List.find? (isFileB fs) l) := by
  intro l
  induction l with
  | nil => intro _; rfl
  | cons p rest ih =>
    intro h
    obtain ⟨b, hb⟩ := h p (List.mem_cons_self p rest)
    have hrest : ∀ q ∈ rest, ∃ b, isExistingFile fs q = .ok b :=
      fun q hq => h q (List.mem_cons_of_mem p hq)
    cases b with
    | true =>
      have hB : isFileB fs p = true := by simp [isFileB, hb]
      rw [List.find?_cons_of_pos _ hB]
      simp only [findExisting]
      rw [hb]
      rfl
    | false =>
      have hB : isFileB fs p = false := by simp [isFileB, hb]
      rw [List.find?_cons_of_neg _ (by simp [hB])]
      simp only [findExisting]
      rw [hb]
      exact ih hrest

/-- C1: with none of the five candidate configuration files present in the
root directory (each candidate stat yields "not an existing regular file"
without throwing), getConfig returns exactly the built-in default
configuration object, with no error. -/
theorem getConfig_defaults_when_no_candidates (fs : FileSystem) (dir : String)
    (h : ∀ c ∈ CONFIG_FILES, isExistingFile fs (pathJoin dir c) = .ok false) :
    getConfig fs dir = .ok DEFAULT_CONFIG := by
  have h1 := h ".clean-env.js" (by simp [CONFIG_FILES])
  have h2 := h ".clean-env.yaml" (by simp [CONFIG_FILES])
  have h3 := h ".clean-env.yml" (by simp [CONFIG_FILES])
  have h4 := h ".clean-env.json" (by simp [CONFIG_FILES])
  have h5 := h "package.json" (by simp [CONFIG_FILES])
  have hfind : getFilenameForDirectory fs dir = .ok none := by
    unfold getFilenameForDirectory CONFIG_FILES
    simp only [List.map_cons, List.map_nil, findExisting, h1, h2, h3, h4, h5]
    rfl
  unfold getConfig
  rw [hfind]
  rfl

/-- Witness for C1: the empty file system under root /w. -/
theorem getConfig_defaults_when_no_candidates_witness :
    (∀ c ∈ CONFIG_FILES, isExistingFile [] (pathJoin "/w" c) = .ok false) ∧
    getConfig ([] : FileSystem) "/w" = .ok DEFAULT_CONFIG := by
  have h : ∀ c ∈ CONFIG_FILES, isExistingFile [] (pathJoin "/w" c) = .ok false := by
    intro c hc
    simp only [CONFIG_FILES, List.mem_cons, List.not_mem_nil, or_false] at hc
    rcases hc with rfl | rfl | rfl | rfl | rfl <;> rfl
  exact ⟨h, getConfig_defaults_when_no_candidates [] "/w" h⟩

/-- C2: the candidate list is exactly .clean-env.js, .clean-env.yaml,
.clean-env.yml, .clean-env.json, package.json in that order, and (when no
candidate stat throws) the selected source is the first candidate path that
exists as a regular file, in that order. -/
theorem candidate_order_first_match (fs : FileSystem) (dir : String)
    (h : ∀ p ∈ CONFIG_FILES.map (pathJoin dir), ∃ b, isExistingFile fs p = .ok b) :
    CONFIG_FILES = [".clean-env.js", ".clean-env.yaml", ".clean-env.yml",
      ".clean-env.json", "package.json"] ∧
    getFilenameForDirectory fs dir =
      .ok (List.find? (isFileB fs) (CONFIG_FILES.map (pathJoin dir))) :=
  ⟨rfl, findExisting_eq_find fs _ h⟩

/-- Witness for C2: with .clean-env.yml and package.json both on disk, the
first existing candidate, .clean-env.yml, is selected. -/
theorem candidate_order_first_match_witness :
    (∀ p ∈ CONFIG_FILES.map (pathJoin "/p"), ∃ b, isExistingFile fsYmlPkg p = .ok b) ∧
    getFilenameForDirectory fsYmlPkg "/p" =
      .ok (List.find? (isFileB fsYmlPkg) (CONFIG_FILES.map (pathJoin "/p"))) ∧
    getFilenameForDirectory fsYmlPkg "/p" = .ok (some "/p/.clean-env.yml") := by
  have h : ∀ p ∈ CONFIG_FILES.map (pathJoin "/p"),
      ∃ b, isExistingFile fsYmlPkg p = .ok b := by
    intro p hp
    simp only [CONFIG_FILES, List.map_cons, List.map_nil, List.mem_cons,
      List.not_mem_nil, or_false] at hp
    rcases hp with rfl | rfl | rfl | rfl | rfl <;> exact ⟨_, rfl⟩
  exact ⟨h, (candidate_order_first_match fsYmlPkg "/p" h).2, rfl⟩

/-- Helper: once a candidate has been selected, a load error becomes the
result of getConfig (resolution does not continue to defaults). -/
theorem getConfig_error_of_load_error (fs : FileSystem) (dir p : String)
    (e : JsError)
    (hsel : getFilenameForDirectory fs dir = .ok (some p))
    (hload : loadConfigFile fs p = .error e) :
    getConfig fs dir = .error e := by
  unfold getConfig
  simp only [hsel, exceptBindOk, hload, exceptBindErr]

/-- C3: if the selected candidate file's read or parse fails, resolution
raises an error whose message contains both the failing file's path and the
original error text, and getConfig propagates exactly that error: it never
falls back to a later candidate or to the defaults. -/
theorem config_load_error_fatal (fs : FileSystem) (dir p m : String)
    (c : FileContent)
    (hsel : getFilenameForDirectory fs dir = .ok (some p))
    (hread : readFile fs p = .ok c)
    (hfmt : formatMatches p c = true)
    (hmsg : contentErrMsg c = some m) :
    ∃ e : JsError, loadConfigFile fs p = .error e ∧ getConfig fs dir = .error e ∧
      (∃ pre suf, e.message = pre ++ (p ++ suf)) ∧
      (∃ pre suf, e.message = pre ++ (m ++ suf)) := by
  cases c with
  | jsModule v => simp [contentErrMsg] at hmsg
  | yamlDoc v => simp [contentErrMsg] at hmsg
  | jsonText b v => simp [contentErrMsg] at hmsg
  | jsBroken m0 =>
    simp only [contentErrMsg, Option.some.injEq] at hmsg
    subst hmsg
    have hext : extname p = ".js" := by
      simpa [formatMatches] using hfmt
    have hload : loadConfigFile fs p = .error ⟨wrapMsg p m0, none⟩ := by
      unfold loadConfigFile loadJSConfigFile
      rw [hext, hread]
      rfl
    refine ⟨⟨wrapMsg p m0, none⟩, hload,
      getConfig_error_of_load_error fs dir p _ hsel hload, ?_, ?_⟩
    · exact ⟨"Cannot read config file: ", "\nError: " ++ m0,
        by simp [wrapMsg, String.append_assoc]⟩
    · exact ⟨"Cannot read config file: " ++ p ++ "\nError: ", "",
        by simp [wrapMsg, String.append_assoc, String.append_empty]⟩
  | yamlBad m0 =>
    simp only [contentErrMsg, Option.some.injEq] at hmsg
    subst hmsg
    have hext : extname p = ".yaml" ∨ extname p = ".yml" := by
      simpa [formatMatches] using hfmt
    have hload : loadConfigFile fs p = .error ⟨wrapMsg p m0, none⟩ := by
      unfold loadConfigFile loadYAMLConfigFile
      rcases hext with hext | hext <;> (rw [hext, hread]; rfl)
    refine ⟨⟨wrapMsg p m0, none⟩, hload,
      getConfig_error_of_load_error fs dir p _ hsel hload, ?_, ?_⟩
    · exact ⟨"Cannot read config file: ", "\nError: " ++ m0,
        by simp [wrapMsg, String.append_assoc]⟩
    · exact ⟨"Cannot read config file: " ++ p ++ "\nError: ", "",
        by simp [wrapMsg, String.append_assoc, String.append_empty]⟩
  | jsonBad m0 =>
    simp only [contentErrMsg, Option.some.injEq] at hmsg
    subst hmsg
    have hext : extname p = ".json" := by
      simpa [formatMatches] using hfmt
    by_cases hb : basename p = "package.json"
    · have hload : loadConfigFile fs p =
          .error ⟨wrapMsg p (wrapMsg p m0), none⟩ := by
        unfold loadConfigFile loadPackageJSONConfigFile loadJSONConfigFile
        rw [hext, if_pos hb, hread]
        rfl
      refine ⟨⟨wrapMsg p (wrapMsg p m0), none⟩, hload,
        getConfig_error_of_load_error fs dir p _ hsel hload, ?_, ?_⟩
      · exact ⟨"Cannot read config file: ", "\nError: " ++ wrapMsg p m0,
          by simp [wrapMsg, String.append_assoc]⟩
      · exact ⟨"Cannot read config file: " ++ p ++ "\nError: " ++
            ("Cannot read config file: " ++ p ++ "\nError: "), "",
          by simp [wrapMsg, String.append_assoc, String.append_empty]⟩
    · have hload : loadConfigFile fs p = .error ⟨wrapMsg p m0, none⟩ := by
        unfold loadConfigFile loadJSONConfigFile
        rw [hext, if_neg hb, hread]
        rfl
      refine ⟨⟨wrapMsg p m0, none⟩, hload,
        getConfig_error_of_load_error fs dir p _ hsel hload, ?_, ?_⟩
      · exact ⟨"Cannot read config file: ", "\nError: " ++ m0,
          by simp [wrapMsg, String.append_assoc]⟩
      · exact ⟨"Cannot read config file: " ++ p ++ "\nError: ", "",
          by simp [wrapMsg, String.append_assoc, String.append_empty]⟩

/-- Witness for C3: a malformed .clean-env.json with a well-formed
package.json behind it; the error carries the .clean-env.json path and the
parser's message, and resolution fails rather than falling through. -/
theorem config_load_error_fatal_witness :
    ∃ e : JsError, loadConfigFile fsBadJson "/p/.clean-env.json" = .error e ∧
      getConfig fsBadJson "/p" = .error e ∧
      (∃ pre suf, e.message = pre ++ ("/p/.clean-env.json" ++ suf)) ∧
      (∃ pre suf, e.message =
        pre ++ ("Unexpected token x in JSON at position 0" ++ suf)) :=
  config_load_error_fatal fsBadJson "/p" "/p/.clean-env.json"
    "Unexpected token x in JSON at position 0"
    (.jsonBad "Unexpected token x in JSON at position 0") rfl rfl rfl rfl

/-- C4: missingRequired is exactly the required names absent from the
environment (empty-string values count as present), as name entries;
foundExcluded is exactly the excluded names present, each paired with its
current value; both keep the declaration order of required/excluded. -/
theorem check_report_contents (required excluded : List String)
    (env : EnvSnapshot) :
    ((missingRequired required env).map (fun e => e.name)).Sublist required ∧
    (∀ e : MissingEntry, e ∈ missingRequired required env ↔
        e.name ∈ required ∧ envGet env e.name = none) ∧
    ((foundExcluded excluded env).map (fun e => e.name)).Sublist excluded ∧
    (∀ e : FoundEntry, e ∈ foundExcluded excluded env ↔
        e.name ∈ excluded ∧ envGet env e.name = some e.value) := by
  refine ⟨?_, ?_, ?_, ?_⟩
  · unfold missingRequired
    rw [List.map_map]
    have hid : ((fun e : MissingEntry => e.name) ∘
        fun k => ({ name := k } : MissingEntry)) = id := rfl
    rw [hid, List.map_id]
    exact List.filter_sublist _
  · intro e
    obtain ⟨n⟩ := e
    simp [missingRequired, Option.isNone_iff_eq_none]
  · unfold foundExcluded
    rw [List.map_map]
    have hid : ((fun e : FoundEntry => e.name) ∘ fun k =>
        ({ name := k, value := (envGet env k).getD "" } : FoundEntry)) = id := rfl
    rw [hid, List.map_id]
    exact List.filter_sublist _
  · intro e
    obtain ⟨n, v⟩ := e
    simp only [foundExcluded, List.mem_map, List.mem_filter,
      FoundEntry.mk.injEq]
    constructor
    · rintro ⟨a, ⟨ha, hs⟩, rfl, rfl⟩
      obtain ⟨w, hw⟩ := Option.isSome_iff_exists.mp hs
      exact ⟨ha, by rw [hw]; rfl⟩
    · rintro ⟨ha, hv⟩
      exact ⟨n, ⟨ha, by rw [hv]; rfl⟩, rfl, by rw [hv]; rfl⟩

/-- Helper: with both report lists empty the run is safe: the script falls
off the end with implicit status 0 and never reads standard input. -/
theorem runCheckSafe (required excluded : List String) (env : EnvSnapshot)
    (yes answer : String)
    (hm : missingRequired required env = [])
    (hf : foundExcluded excluded env = []) :
    runCheck required excluded env yes answer = .exitNoPrompt 0 := by
  unfold runCheck
  simp [hm, hf]

/-- Helper: with a non-empty report list the run prompts and exits 0 exactly
on a strictly equal answer, else 1. -/
theorem runCheckUnsafe (required excluded : List String) (env : EnvSnapshot)
    (yes answer : String)
    (h : missingRequired required env ≠ [] ∨ foundExcluded excluded env ≠ []) :
    runCheck required excluded env yes answer =
      .exitAfterPrompt (if answer = yes then 0 else 1) := by
  unfold runCheck
  rcases h with h | h
  · cases hm : missingRequired required env with
    | nil => exact absurd hm h
    | cons a l => by_cases ha : answer = yes <;> simp [hm, ha]
  · cases hf : foundExcluded excluded env with
    | nil => exact absurd hf h
    | cons a l => by_cases ha : answer = yes <;> simp [hf, ha]

/-- C5: with both report lists empty the process exits 0 without reading
standard input; otherwise it prompts and exits 0 exactly when the answer
equals config.translations.yes, else 1. -/
theorem runCheck_prompt_and_exit (required excluded : List String)
    (env : EnvSnapshot) (yes answer : String) :
    (missingRequired required env = [] ∧ foundExcluded excluded env = [] →
      runCheck required excluded env yes answer = .exitNoPrompt 0) ∧
    (missingRequired required env ≠ [] ∨ foundExcluded excluded env ≠ [] →
      runCheck required excluded env yes answer =
        .exitAfterPrompt (if answer = yes then 0 else 1)) :=
  ⟨fun h => runCheckSafe required excluded env yes answer h.1 h.2,
   runCheckUnsafe required excluded env yes answer⟩

/-- Witness for C5: a clean run exits 0 with no prompt; a run missing
required variable A prompts and exits 1 on a non-affirmative answer. -/
theorem runCheck_prompt_and_exit_witness :
    runCheck [] [] [] "y" "whatever" = .exitNoPrompt 0 ∧
    (missingRequired ["A"] [] ≠ [] ∨ foundExcluded [] [] ≠ []) ∧
    runCheck ["A"] [] [] "y" "n" = .exitAfterPrompt 1 := by
  have hne : missingRequired ["A"] [] ≠ [] := by decide
  refine ⟨(runCheck_prompt_and_exit [] [] [] "y" "whatever").1 ⟨rfl, rfl⟩,
    Or.inl hne, ?_⟩
  have h := (runCheck_prompt_and_exit ["A"] [] [] "y" "n").2 (Or.inl hne)
  simpa using h

/-- Counterexample for C9: with a non-empty report, an answer equal to the
affirmative string surrounded by whitespace is rejected (exit 1), although
its trimmed form equals config.translations.yes — the code compares the raw
answer, untrimmed. -/
theorem untrimmed_answer_rejected :
    specTrim " y " = "y" ∧
    missingRequired ["A"] [] = [{ name := "A" }] ∧
    runCheck ["A"] [] [] "y" " y " = .exitAfterPrompt 1 :=
  ⟨rfl, rfl, rfl⟩

/-- C9 amended: when the report lists are non-empty, the raw answer (no
trimming) is compared case-sensitively and exactly against
config.translations.yes; exit status is 0 precisely on exact equality and 1
otherwise. -/
theorem answer_compared_exactly (required excluded : List String)
    (env : EnvSnapshot) (yes answer : String)
    (h : missingRequired required env ≠ [] ∨ foundExcluded excluded env ≠ []) :
    (runCheck required excluded env yes answer = .exitAfterPrompt 0 ↔
      answer = yes) ∧
    (answer ≠ yes →
      runCheck required excluded env yes answer = .exitAfterPrompt 1) := by
  rw [runCheckUnsafe required excluded env yes answer h]
  by_cases ha : answer = yes <;> simp [ha]

/-- Witness for C9's amended claim: concrete non-empty report, with the
whitespace-surrounded answer rejected. -/
theorem answer_compared_exactly_witness :
    (missingRequired ["A"] [] ≠ [] ∨ foundExcluded [] [] ≠ []) ∧
    (runCheck ["A"] [] [] "y" " y " = .exitAfterPrompt 0 ↔ " y " = "y") ∧
    runCheck ["A"] [] [] "y" " y " = .exitAfterPrompt 1 := by
  have hne : missingRequired ["A"] [] ≠ [] := by decide
  have h := answer_compared_exactly ["A"] [] [] "y" " y " (Or.inl hne)
  exact ⟨Or.inl hne, h.1, h.2 (by decide)⟩

/-- C6: merging a user configuration that overrides any single translations
key leaves the other four translation messages at their defaults (and every
non-translations field at its default), and a configuration containing only
required ["X"], in each of the five candidate formats, resolves to required
== ["X"] with every other field equal to its default. -/
theorem user_config_merges_over_defaults (key val : String)
    (hk : key ∈ ["missingRequired", "foundExcluded", "errorStatement",
      "errorQuestion", "yes"]) :
    deepmerge DEFAULT_CONFIG
        (.obj [("translations", .obj [(key, .str val)])]) =
      .obj [("required", .arr []), ("excluded", .arr []),
            ("dotenv", .str ".env"),
            ("translations", .obj (defaultTranslationsWith key (.str val)))] ∧
    getConfig fsJsX "/p" = .ok mergedRequiredX ∧
    getConfig fsYamlX "/p" = .ok mergedRequiredX ∧
    getConfig fsYmlX "/p" = .ok mergedRequiredX ∧
    getConfig fsJsonX "/p" = .ok mergedRequiredX ∧
    getConfig fsPkgX "/p" = .ok mergedRequiredX := by
  refine ⟨?_, rfl, rfl, rfl, rfl, rfl⟩
  simp only [List.mem_cons, List.not_mem_nil, or_false] at hk
  rcases hk with rfl | rfl | rfl | rfl | rfl <;> rfl

/-- Witness for C6: overriding the yes key alone. -/
theorem user_config_merges_over_defaults_witness :
    ("yes" ∈ ["missingRequired", "foundExcluded", "errorStatement",
      "errorQuestion", "yes"]) ∧
    deepmerge DEFAULT_CONFIG
        (.obj [("translations", .obj [("yes", .str "oui")])]) =
      .obj [("required", .arr []), ("excluded", .arr []),
            ("dotenv", .str ".env"),
            ("translations", .obj (defaultTranslationsWith "yes" (.str "oui")))] :=
  ⟨by decide,
   (user_config_merges_over_defaults "yes" "oui" (by decide)).1⟩

/-- C7: an empty YAML document loads as the empty mapping (never null), and
a root containing only an empty .clean-env.yaml or .clean-env.yml resolves
to exactly what a root with no configuration file resolves to — the
defaults, with no error. -/
theorem empty_yaml_like_no_config (fs : FileSystem) (p : String)
    (hread : readFile fs p = .ok (.yamlDoc none)) :
    loadYAMLConfigFile fs p = .ok (.obj []) ∧
    getConfig fsEmptyYaml "/p" = .ok DEFAULT_CONFIG ∧
    getConfig fsEmptyYml "/p" = .ok DEFAULT_CONFIG ∧
    getConfig ([] : FileSystem) "/p" = .ok DEFAULT_CONFIG ∧
    getConfig fsEmptyYaml "/p" = getConfig ([] : FileSystem) "/p" ∧
    getConfig fsEmptyYml "/p" = getConfig ([] : FileSystem) "/p" := by
  refine ⟨?_, rfl, rfl, rfl, rfl, rfl⟩
  unfold loadYAMLConfigFile
  rw [hread]

/-- Witness for C7: the empty .clean-env.yaml root. -/
theorem empty_yaml_like_no_config_witness :
    loadYAMLConfigFile fsEmptyYaml "/p/.clean-env.yaml" = .ok (.obj []) ∧
    getConfig fsEmptyYaml "/p" = getConfig ([] : FileSystem) "/p" :=
  ⟨(empty_yaml_like_no_config fsEmptyYaml "/p/.clean-env.yaml" rfl).1,
   (empty_yaml_like_no_config fsEmptyYaml "/p/.clean-env.yaml" rfl).2.2.2.2.1⟩

/-- Counterexample for C8: the manifest loader is not a strict JSON parse.
A package.json valid only after comment stripping fails a strict JSON parse
yet is accepted by the code, which extracts its clean-env section and
resolves successfully. -/
theorem package_json_not_strict_json :
    strictParseJSONContent pkgWithComments = .error "Unexpected token in JSON" ∧
    loadPackageJSONConfigFile fsPkgComments "/p/package.json" =
      .ok requiredXConfig ∧
    getConfig fsPkgComments "/p" = .ok mergedRequiredX :=
  ⟨rfl, rfl, rfl⟩

/-- C8 amended: package.json is parsed by the same comment-stripping JSON
loader as .clean-env.json; the value at the fixed top-level key clean-env
is extracted, and an absent key yields null — "no configuration found",
distinct from an empty-object configuration and not an error — so
resolution falls through to the built-in defaults. -/
theorem package_json_embedded_field (fs : FileSystem) (p : String)
    (strict : Bool) (fields : List (String × Jval))
    (hread : readFile fs p = .ok (.jsonText strict (.obj fields))) :
    loadPackageJSONConfigFile fs p =
      .ok (match List.lookup "clean-env" fields with
           | some cv => if jsFalsy cv then .null else cv
           | none => .null) ∧
    (List.lookup "clean-env" fields = none →
      loadPackageJSONConfigFile fs p = .ok .null) ∧
    loadConfigFile fsPkgNoKey "/p/package.json" = .ok .null ∧
    loadConfigFile fsPkgEmptyKey "/p/package.json" = .ok (.obj []) ∧
    getConfig fsPkgNoKey "/p" = .ok DEFAULT_CONFIG := by
  have h1 : loadPackageJSONConfigFile fs p =
      .ok (match List.lookup "clean-env" fields with
           | some cv => if jsFalsy cv then .null else cv
           | none => .null) := by
    unfold loadPackageJSONConfigFile loadJSONConfigFile
    rw [hread]
    cases hl : List.lookup "clean-env" fields <;> simp [hl]
  refine ⟨h1, fun hnone => ?_, rfl, rfl, rfl⟩
  rw [h1, hnone]

/-- Witness for C8's amended claim: a package.json with only a name field. -/
theorem package_json_embedded_field_witness :
    loadPackageJSONConfigFile fsPkgNoKey "/p/package.json" =
      .ok (match List.lookup "clean-env"
            [("name", Jval.str "clean-env-demo")] with
           | some cv => if jsFalsy cv then .null else cv
           | none => .null) ∧
    getConfig fsPkgNoKey "/p" = .ok DEFAULT_CONFIG := by
  have h := package_json_embedded_field fsPkgNoKey "/p/package.json" true
    [("name", Jval.str "clean-env-demo")] rfl
  exact ⟨h.1, h.2.2.2.2⟩

/-- C10: a candidate path that exists but is not a regular file (a
directory) is treated as non-existing and discovery moves on to the next
candidate, while a stat failure with any code other than ENOENT propagates
out of resolution as an error. -/
theorem non_file_skipped_stat_error_propagates :
    (∀ (fs : FileSystem) (p : String), List.lookup p fs = some .directory →
      isExistingFile fs p = .ok false) ∧
    (∀ (fs : FileSystem) (p code : String),
      List.lookup p fs = some (.statError code) → code ≠ "ENOENT" →
      isExistingFile fs p = .error (statFailError p code)) ∧
    getFilenameForDirectory fsDirThenJson "/p" =
      .ok (some "/p/.clean-env.json") ∧
    getConfig fsStatErr "/p" =
      .error (statFailError "/p/.clean-env.yaml" "EACCES") := by
  refine ⟨?_, ?_, rfl, rfl⟩
  · intro fs p h
    unfold isExistingFile
    rw [h]
  · intro fs p code h hcode
    unfold isExistingFile
    rw [h]
    simp [hcode]

/-- Witness for C10: the directory entry yields false without error; the
EACCES stat failure yields the propagated error. -/
theorem non_file_skipped_stat_error_propagates_witness :
    isExistingFile fsDirThenJson "/p/.clean-env.js" = .ok false ∧
    isExistingFile fsStatErr "/p/.clean-env.yaml" =
      .error (statFailError "/p/.clean-env.yaml" "EACCES") :=
  ⟨non_file_skipped_stat_error_propagates.1 fsDirThenJson "/p/.clean-env.js" rfl,
   non_file_skipped_stat_error_propagates.2.1 fsStatErr "/p/.clean-env.yaml"
     "EACCES" rfl (by decide)⟩

end CleanEnv
